import Mathlib

/-!
Shallow embedding of the go-log repository (package `logger`): the entry
store, entry factory, finalization protocol, session facade, id generator
and the value-rendering part of the pretty formatter, together with
theorems settling the frozen claims about them.

Modelling conventions:
* Go's `sync.Map` (field `Logger.logs`) is modelled as an association list
  `List (String × StoreVal)`; `Store` replaces the binding in place,
  `Load` returns the current binding, `Delete` removes it.  The map holds
  two kinds of values in the source (`[]*Entry` under a thread id and
  `int` under `reqId + "_status"`), so the value type is the sum
  `StoreVal`; a failing Go type assertion is modelled as `Except.error`.
* `*Entry` pointers are modelled as immutable `Entry` values; no claim
  under verification depends on post-insert aliasing of an entry.
* `time.Now()` and the `runtime.Caller` call site are environment inputs:
  the current time is an explicit `now` argument and the call site is part
  of the logger state.
* Observer callbacks `OnLog` / `OnError` are modelled by registration
  flags plus the ordered list of invocations a finalization produces.
* Go `int64` is modelled as `Int` reduced to the range
  `[-2^63, 2^63)` by `wrap64` wherever the source increments it.
-/

namespace GoLog

/-- Closed variant standing for the dynamically typed (`interface{}`)
annotation values that reach the renderer: string, error, int and bool. -/
inductive GoVal where
  | str (s : String)
  | err (msg : String)
  | int (n : Int)
  | bool (b : Bool)
  deriving DecidableEq, Repr

/-- One log record, from `type Entry struct` in logger.go.  `KeyVals []kv`
with `kv{Key string; Val interface{}}` becomes `List (String × GoVal)`. -/
structure Entry where
  threadId : String
  level : String
  function : String
  file : String
  message : String
  line : Int
  keyVals : List (String × GoVal)
  deriving DecidableEq, Repr

/-- The zero value `Entry{}` returned on the suppressed / no-op paths. -/
def emptyEntry : Entry :=
  { threadId := "", level := "", function := "", file := "", message := ""
    line := 0, keyVals := [] }

/-- Embeds `func (e *Entry) Data(k string, v interface{}) *Entry`. -/
def Entry.data (e : Entry) (k : String) (v : GoVal) : Entry :=
  { e with keyVals := e.keyVals ++ [(k, v)] }

/-- A value stored in the shared `sync.Map`: either an entry sequence
(`[]*Entry`, keyed by thread id) or an HTTP status code (`int`, keyed by
`reqId + "_status"`). -/
inductive StoreVal where
  | entries (ee : List Entry)
  | code (c : Int)
  deriving DecidableEq, Repr

/-- A Go runtime panic arising from a failed type assertion
(`entries.([]*Entry)` or `status.(int)`). -/
inductive GoPanic where
  | typeAssertion
  deriving DecidableEq, Repr

/-- Embeds `sync.Map.Load`. -/
def mapLoad : List (String × StoreVal) → String → Option StoreVal
  | [], _ => none
  | (k, v) :: rest, key => if k = key then some v else mapLoad rest key

/-- Embeds `sync.Map.Store`: replace the binding for the key in place, or append
a fresh binding. -/
def mapStore : List (String × StoreVal) → String → StoreVal → List (String × StoreVal)
  | [], key, v => [(key, v)]
  | (k, w) :: rest, key, v =>
    if k = key then (key, v) :: rest else (k, w) :: mapStore rest key v

/-- Embeds `sync.Map.Delete`. -/
def mapDelete (m : List (String × StoreVal)) (key : String) : List (String × StoreVal) :=
  m.filter (fun p => p.1 ≠ key)

/-- Severity levels `levelInfo`, `levelError`, `levelDebug`. -/
inductive Level where
  | info
  | error
  | debug
  deriving DecidableEq, Repr

/-- Embeds `logLevel.String()`. -/
def levelName : Level → String
  | .info => "Info"
  | .error => "Error"
  | .debug => "Debug"

/-- Thread kinds `kindRequest`, `kindSession`. -/
inductive ThreadKind where
  | request
  | session
  deriving DecidableEq, Repr

/-- State of a `Logger` value: observer registration, the id counter, the
two toggles, the environment's current call-site answer, and the shared
map. -/
structure LoggerState where
  onLogSet : Bool
  onErrorSet : Bool
  idCount : Int
  debug : Bool
  runtime : Bool
  callSiteFunction : String
  callSiteFile : String
  callSiteLine : Int
  logs : List (String × StoreVal)
  deriving DecidableEq, Repr

/-- Embeds `func (l *Logger) insertEntry(e *Entry)`: load the sequence for
`e.ThreadId`, append, store back; a fresh singleton sequence if absent.
The source's `entries.([]*Entry)` assertion panics if the slot holds an
`int`. -/
def insertEntry (l : LoggerState) (e : Entry) : Except GoPanic LoggerState :=
  match mapLoad l.logs e.threadId with
  | none => .ok { l with logs := mapStore l.logs e.threadId (.entries [e]) }
  | some (.entries ee) =>
      .ok { l with logs := mapStore l.logs e.threadId (.entries (ee ++ [e])) }
  | some (.code _) => .error .typeAssertion

/-- The store write of `func (l *Logger) logStatus(reqId string, w
HeaderWriter, code int)`: `l.logs.Store(reqId+"_status", code)`.  The
`w.WriteHeader(code)` call is an effect on the external header sink and
is outside the modelled state. -/
def logStatus (l : LoggerState) (reqId : String) (code : Int) : LoggerState :=
  { l with logs := mapStore l.logs (reqId ++ "_status") (.code code) }

/-- Embeds `func (l *Logger) status(reqId string) (code int)`: read the side
table, defaulting to 200; the `status.(int)` assertion panics if the slot
holds an entry sequence. -/
def status (l : LoggerState) (reqId : String) : Except GoPanic Int :=
  match mapLoad l.logs (reqId ++ "_status") with
  | some (.code c) => .ok c
  | some (.entries _) => .error .typeAssertion
  | none => .ok 200

/-- Embeds `strings.HasSuffix(msg, ".")`. -/
def endsInPeriod (msg : String) : Bool :=
  match msg.data.getLast? with
  | some c => c = '.'
  | none => false

/-- The source's first-rune capitalization loop (`for _, r := range msg
{ msg = strings.ToUpper(string(r)) + msg[len(string(r)):]; break }`): on
an empty string the loop body never runs. -/
def capitalizeData : List Char → List Char
  | [] => []
  | c :: rest => Char.toUpper c :: rest

/-- The normalization block at the top of `logEntry` in logger.go: append
a period when the message does not already end in one, then capitalize the
first rune (`strings.ToUpper` on one rune; `Char.toUpper` agrees with it
on ASCII, which is all the claims exercise). -/
def normalizeMsg (msg : String) : String :=
  let m := if endsInPeriod msg then msg else msg ++ "."
  ⟨capitalizeData m.data⟩

/-- The entry `logEntry` constructs on its non-suppressed path: the
normalized message and, when the runtime toggle is on, the call site
(per field, equivalent to the source's construct-then-fill). -/
def builtEntry (l : LoggerState) (level : Level) (threadId msg : String) : Entry :=
  { threadId := threadId, level := levelName level
    function := if l.runtime then l.callSiteFunction else ""
    file := if l.runtime then l.callSiteFile else ""
    message := normalizeMsg msg
    line := if l.runtime then l.callSiteLine else 0
    keyVals := [] }

/-- Embeds `func (l *Logger) logEntry(level logLevel, threadId, msg string)
*Entry`: normalize the message (the source does this before anything
else), suppress Debug entries when the debug toggle is off (zero-value
placeholder, no insert), otherwise construct the entry, insert it, and
return it. -/
def logEntry (l : LoggerState) (level : Level) (threadId msg : String) :
    Except GoPanic (Entry × LoggerState) :=
  if level = Level.debug ∧ l.debug = false then .ok (emptyEntry, l)
  else
    match insertEntry l (builtEntry l level threadId msg) with
    | .ok l2 => .ok (builtEntry l level threadId msg, l2)
    | .error p => .error p

/-- The finalized aggregate record, `type Thread struct`. -/
structure Thread where
  date : Nat
  kind : ThreadKind
  id : String
  ip : String
  method : String
  route : String
  status : Int
  duration : Int
  entries : List Entry
  deriving DecidableEq, Repr

/-- One synchronous observer callback invocation performed by `end`. -/
inductive Invocation where
  | onError (t : Thread)
  | onLog (t : Thread)
  deriving DecidableEq, Repr

/-- The load/delete/assert prelude of `func (l *Logger) end`: read the
sequence for `threadId` and remove it from the map when present. -/
def drainResult (l : LoggerState) (threadId : String) :
    Except GoPanic (List Entry × LoggerState) :=
  match mapLoad l.logs threadId with
  | none => .ok ([], l)
  | some (.entries ee) => .ok (ee, { l with logs := mapDelete l.logs threadId })
  | some (.code _) => .error .typeAssertion

/-- Embeds `func (l *Logger) end(kind threadKind, threadId, ip, method, route
string, duration int64)` (the name `end` is a Lean keyword).  Mirrors the
source line by line: drain; suppress an empty session; build the record
(status from the side table for requests); if an error observer is
registered and the error subset is non-empty, overwrite `log.Entries`
with the subset and invoke it; then invoke the general observer — note
the source does not restore `log.Entries` first, so the general observer
receives whatever the local `log` holds at that point. -/
def endThread (l : LoggerState) (kind : ThreadKind) (threadId ip method route : String)
    (duration : Int) (now : Nat) : Except GoPanic (List Invocation × LoggerState) :=
  match drainResult l threadId with
  | .error p => .error p
  | .ok (ee, l2) =>
    if kind = ThreadKind.session ∧ ee = [] then .ok ([], l2)
    else
      let statusRes : Except GoPanic Int :=
        if kind = ThreadKind.request then status l2 threadId else .ok 0
      match statusRes with
      | .error p => .error p
      | .ok st =>
        let log : Thread := { date := now, kind := kind, id := threadId, ip := ip
                              method := method, route := route, status := st
                              duration := duration, entries := ee }
        let errs := ee.filter (fun e => e.level = levelName Level.error)
        let log2 := if l2.onErrorSet = true ∧ errs ≠ [] then { log with entries := errs } else log
        let invs1 := if l2.onErrorSet = true ∧ errs ≠ [] then [Invocation.onError log2] else []
        let invs2 := if l2.onLogSet = true then [Invocation.onLog log2] else []
        .ok (invs1 ++ invs2, l2)

/-- State of a `Session` value (its `logger` pointer is passed explicitly
to each operation). -/
structure SessionState where
  name : String
  id : String
  ended : Bool
  deriving DecidableEq, Repr

/-- Embeds `func (s *Session) Info(msg string) *Entry`. -/
def sessionInfo (s : SessionState) (l : LoggerState) (msg : String) :
    Except GoPanic (Entry × LoggerState) :=
  if s.ended then .ok (emptyEntry, l) else logEntry l Level.info s.id msg

/-- Embeds `func (s *Session) Error(msg string) *Entry`. -/
def sessionError (s : SessionState) (l : LoggerState) (msg : String) :
    Except GoPanic (Entry × LoggerState) :=
  if s.ended then .ok (emptyEntry, l) else logEntry l Level.error s.id msg

/-- Embeds `func (s *Session) Debug(msg string) *Entry`. -/
def sessionDebug (s : SessionState) (l : LoggerState) (msg : String) :
    Except GoPanic (Entry × LoggerState) :=
  if s.ended then .ok (emptyEntry, l) else logEntry l Level.debug s.id msg

/-- Embeds `func (s *Session) InfoF(format string, a ...interface{}) *Entry`,
with `fmt.Sprintf(format, a...)` supplied as the already-formatted
string. -/
def sessionInfoF (s : SessionState) (l : LoggerState) (formatted : String) :
    Except GoPanic (Entry × LoggerState) :=
  if s.ended then .ok (emptyEntry, l) else logEntry l Level.info s.id formatted

/-- Embeds `func (s *Session) ErrorF(...)`, formatted string supplied. -/
def sessionErrorF (s : SessionState) (l : LoggerState) (formatted : String) :
    Except GoPanic (Entry × LoggerState) :=
  if s.ended then .ok (emptyEntry, l) else logEntry l Level.error s.id formatted

/-- Embeds `func (s *Session) DebugF(...)`, formatted string supplied. -/
def sessionDebugF (s : SessionState) (l : LoggerState) (formatted : String) :
    Except GoPanic (Entry × LoggerState) :=
  if s.ended then .ok (emptyEntry, l) else logEntry l Level.debug s.id formatted

/-- Embeds `func (s *Session) End()`: a no-op when already ended, otherwise set
the flag and finalize a session-kind thread. -/
def sessionEnd (s : SessionState) (l : LoggerState) (now : Nat) :
    SessionState × Except GoPanic (List Invocation × LoggerState) :=
  if s.ended then (s, .ok ([], l))
  else ({ s with ended := true }, endThread l ThreadKind.session s.id "" "" s.name 0 now)

/-- Reduce an integer to the value a Go `int64` holds after wrapping. -/
def wrap64 (x : Int) : Int := (x + 2 ^ 63) % 2 ^ 64 - 2 ^ 63

/-- The digit loop of `strconv.FormatInt(_, 10)` on a non-negative value,
most significant digit first, with the structural fuel `n + 1` consumed
by `formatDec`. -/
def decDigitsAux : Nat → Nat → List Char → List Char
  | 0, _, ds => ds
  | fuel + 1, n, ds =>
    if n < 10 then Nat.digitChar n :: ds
    else decDigitsAux fuel (n / 10) (Nat.digitChar (n % 10) :: ds)

/-- Decimal string of a natural number, as `strconv` produces it. -/
def formatDec (n : Nat) : String := ⟨decDigitsAux (n + 1) n []⟩

/-- Embeds `strconv.FormatInt(i, 10)`. -/
def formatInt (i : Int) : String :=
  if i < 0 then "-" ++ formatDec i.natAbs else formatDec i.toNat

/-- Embeds `func (l *Logger) NewId() string`: increment the shared `int64`
counter under the mutex and return its decimal string. -/
def newId (l : LoggerState) : String × LoggerState :=
  let c := wrap64 (l.idCount + 1)
  (formatInt c, { l with idCount := c })

/-- Logger state reached after `n` calls to `NewId` starting from `l`. -/
def stateAfterCalls (l : LoggerState) : Nat → LoggerState
  | 0 => l
  | n + 1 => (newId (stateAfterCalls l n)).2

/-- The id returned by call number `n` (1-based) to `NewId`, starting
from logger state `l`. -/
def callId (l : LoggerState) (n : Nat) : String :=
  (newId (stateAfterCalls l (n - 1))).1

/-- The single `Next()` call of `DataMulti`'s loop header, with the
`KeyValuer` modelled by the list of pairs it would yield in order:
`(key, val, done)`. -/
def keyValuerNext (kvs : List (String × GoVal)) : String × GoVal × Bool :=
  match kvs with
  | [] => ("", .int 0, true)
  | (k, v) :: _ => (k, v, false)

/-- The body of `DataMulti`'s `for` loop, run under explicit fuel.  The
source loop has no post statement and never calls `Next()` again, so
`k`, `v` and `done` keep the values of the single initial call; `none`
means the fuel ran out with the loop still running. -/
def dataMultiLoop : Nat → Entry → String → GoVal → Bool → Option Entry
  | _, e, _, _, true => some e
  | 0, _, _, _, false => none
  | fuel + 1, e, k, v, false =>
    dataMultiLoop fuel { e with keyVals := e.keyVals ++ [(k, v)] } k v false

/-- Embeds `func (e *Entry) DataMulti(kvs KeyValuer) *Entry`, fueled. -/
def dataMulti (fuel : Nat) (e : Entry) (kvs : List (String × GoVal)) : Option Entry :=
  match keyValuerNext kvs with
  | (k, v, done) => dataMultiLoop fuel e k v done

/-- The per-value `switch kv.Val.(type)` inside `FormatPretty`'s
key-value loop: errors and strings are rendered inside double quotes
(`fmt.Sprintf("\x22%v\x22", ...)`), everything else through plain `%v`. -/
def prettyVal : GoVal → String
  | .err m => "\"" ++ m ++ "\""
  | .str s => "\"" ++ s ++ "\""
  | .int n => formatInt n
  | .bool b => if b then "true" else "false"

/-- One line of `FormatPretty`'s key-value loop:
`fmt.Sprintf(" %s    %s = %s\n", fStart, kv.Key, val)`. -/
def prettyKvLine (fStart k : String) (v : GoVal) : String :=
  " " ++ fStart ++ "    " ++ k ++ " = " ++ prettyVal v ++ "\n"

/-- The accumulated `kvs` string of `FormatPretty`'s key-value loop. -/
def prettyKvs (fStart : String) (kvs : List (String × GoVal)) : String :=
  kvs.foldl (fun acc p => acc ++ prettyKvLine fStart p.1 p.2) ""

/-- The buffered entry sequence currently stored for a thread id, when
the slot holds one. -/
def bufferedEntries (l : LoggerState) (t : String) : Option (List Entry) :=
  match mapLoad l.logs t with
  | some (.entries ee) => some ee
  | _ => none

/-- A logger in its zero / freshly configured state with both observers
registered. -/
def sampleLogger : LoggerState :=
  { onLogSet := true, onErrorSet := true, idCount := 0, debug := false
    runtime := false, callSiteFunction := "", callSiteFile := ""
    callSiteLine := 0, logs := [] }

/-- The `Logger{}` zero value: no observers, counter at zero. -/
def zeroLogger : LoggerState :=
  { onLogSet := false, onErrorSet := false, idCount := 0, debug := false
    runtime := false, callSiteFunction := "", callSiteFile := ""
    callSiteLine := 0, logs := [] }

/-- Projection used to compare entry-factory results across unrelated
configuration flags: the produced entry and the resulting shared map. -/
def entryAndLogs (r : Except GoPanic (Entry × LoggerState)) :
    Except GoPanic (Entry × List (String × StoreVal)) :=
  r.map (fun p => (p.1, p.2.logs))

/-- An Info-level entry as it would sit buffered under thread id `t`. -/
def entryInfoSample : Entry :=
  { threadId := "t", level := "Info", function := "", file := ""
    message := "A.", line := 0, keyVals := [] }

/-- An Error-level entry buffered under thread id `t`. -/
def entryErrorSample : Entry := { entryInfoSample with level := "Error", message := "B." }

/-- A Debug-level entry buffered under thread id `t`. -/
def entryDebugSample : Entry := { entryInfoSample with level := "Debug", message := "C." }

/-- A logger with both observers registered and entries of levels
`[Info, Error, Debug]` buffered for thread id `t`. -/
def loggerWithThreeLevels : LoggerState :=
  { sampleLogger with
    logs := [("t", .entries [entryInfoSample, entryErrorSample, entryDebugSample])] }

/-- The record both observers actually receive in that scenario: entries
filtered to the single Error-level entry. -/
def recordErrorOnly : Thread :=
  { date := 0, kind := ThreadKind.session, id := "t", ip := "", method := ""
    route := "s", status := 0, duration := 0, entries := [entryErrorSample] }

/-- A logger whose store holds an entry sequence under the thread id
`"a_status"`, which is also the status key for request id `"a"`. -/
def statusCollisionLogger : LoggerState :=
  { sampleLogger with logs := [("a_status", .entries [emptyEntry])] }

/-- Formalizes the claim's phrase "ends with exactly one terminating
period": the last character is a period and the one before it (if any)
is not. -/
def endsInExactlyOnePeriod (s : String) : Bool :=
  match s.data.reverse with
  | '.' :: '.' :: _ => false
  | '.' :: _ => true
  | _ => false

theorem mapLoad_mapStore_self (m : List (String × StoreVal)) (k : String) (v : StoreVal) :
    mapLoad (mapStore m k v) k = some v := by
  induction m with
  | nil => simp [mapStore, mapLoad]
  | cons p rest ih =>
    obtain ⟨k1, v1⟩ := p
    by_cases h : k1 = k
    · simp [mapStore, h, mapLoad]
    · simp [mapStore, h, mapLoad, ih]

theorem mapLoad_mapStore_ne (m : List (String × StoreVal)) (k : String) (v : StoreVal)
    (k2 : String) (h : k2 ≠ k) : mapLoad (mapStore m k v) k2 = mapLoad m k2 := by
  have h2 : ¬ k = k2 := fun hx => h hx.symm
  induction m with
  | nil => simp [mapStore, mapLoad, h2]
  | cons p rest ih =>
    obtain ⟨k1, v1⟩ := p
    by_cases h1 : k1 = k
    · subst h1
      simp [mapStore, mapLoad, h2]
    · simp only [mapStore, if_neg h1, mapLoad]
      by_cases h3 : k1 = k2
      · simp [h3]
      · simp [h3, ih]

@[simp] theorem builtEntry_threadId (l : LoggerState) (level : Level) (tid msg : String) :
    (builtEntry l level tid msg).threadId = tid := rfl

@[simp] theorem builtEntry_set_debug (l : LoggerState) (b : Bool) (level : Level)
    (tid msg : String) :
    builtEntry { l with debug := b } level tid msg = builtEntry l level tid msg := rfl

/-- Claim C4: creating a Debug-level entry while debug logging is
disabled returns the zero-value placeholder entry and leaves the logger
state (in particular the entry store) completely unchanged — no insert
happens; and for the other levels the result (entry produced and store
contents) does not depend on the debug flag at all. -/
theorem c4_debug_suppression_frame (l : LoggerState) (tid msg : String) :
    logEntry { l with debug := false } Level.debug tid msg =
      .ok (emptyEntry, { l with debug := false })
    ∧ (∀ b b' : Bool,
        entryAndLogs (logEntry { l with debug := b } Level.info tid msg) =
          entryAndLogs (logEntry { l with debug := b' } Level.info tid msg))
    ∧ (∀ b b' : Bool,
        entryAndLogs (logEntry { l with debug := b } Level.error tid msg) =
          entryAndLogs (logEntry { l with debug := b' } Level.error tid msg)) := by
  refine ⟨by simp [logEntry], ?_, ?_⟩
  · intro b b'
    simp only [logEntry, insertEntry, builtEntry_set_debug, builtEntry_threadId]
    cases h : mapLoad l.logs tid with
    | none => simp [entryAndLogs, Except.map]
    | some w => cases w <;> simp [entryAndLogs, Except.map]
  · intro b b'
    simp only [logEntry, insertEntry, builtEntry_set_debug, builtEntry_threadId]
    cases h : mapLoad l.logs tid with
    | none => simp [entryAndLogs, Except.map]
    | some w => cases w <;> simp [entryAndLogs, Except.map]

/-- Claim C5: finalizing a thread id with zero buffered entries (and no
status ever set) invokes no observer at all for the session kind, and for
the request kind invokes exactly the general observer, with a record
whose status defaults to 200 and whose entry list is empty. -/
theorem c5_finalize_empty_thread (l : LoggerState) (tid ip mth rt : String)
    (d : Int) (now : Nat)
    (h1 : mapLoad l.logs tid = none)
    (h2 : mapLoad l.logs (tid ++ "_status") = none) :
    endThread l ThreadKind.session tid ip mth rt d now = .ok ([], l)
    ∧ (l.onLogSet = true →
        endThread l ThreadKind.request tid ip mth rt d now =
          .ok ([Invocation.onLog
                 { date := now, kind := ThreadKind.request, id := tid, ip := ip
                   method := mth, route := rt, status := 200, duration := d
                   entries := [] }], l)) := by
  constructor
  · simp [endThread, drainResult, h1]
  · intro hset
    simp [endThread, drainResult, h1, status, h2, hset]

/-- Witness for C5 on a concrete logger with both observers registered
and nothing buffered. -/
theorem c5_witness :
    mapLoad sampleLogger.logs "t" = none
    ∧ mapLoad sampleLogger.logs ("t" ++ "_status") = none
    ∧ endThread sampleLogger ThreadKind.session "t" "ip" "GET" "/r" 5 9 =
        .ok ([], sampleLogger)
    ∧ endThread sampleLogger ThreadKind.request "t" "ip" "GET" "/r" 5 9 =
        .ok ([Invocation.onLog
               { date := 9, kind := ThreadKind.request, id := "t", ip := "ip"
                 method := "GET", route := "/r", status := 200, duration := 5
                 entries := [] }], sampleLogger) :=
  ⟨rfl, rfl,
   (c5_finalize_empty_thread sampleLogger "t" "ip" "GET" "/r" 5 9 rfl rfl).1,
   (c5_finalize_empty_thread sampleLogger "t" "ip" "GET" "/r" 5 9 rfl rfl).2 rfl⟩

/-- Claim C1 (code-bug evaluation): finalizing a thread whose drained
entries have levels `[Info, Error, Debug]` with both observers registered
invokes the error observer with the record filtered to the Error entry —
but then invokes the general observer with the SAME filtered record, not
the full three-entry record: `end` overwrites the local `log.Entries`
with the error subset before dispatching to `OnError` and never restores
it before dispatching to `OnLog`. -/
theorem c1_general_observer_gets_filtered_record :
    endThread loggerWithThreeLevels ThreadKind.session "t" "" "" "s" 0 0 =
      .ok ([Invocation.onError recordErrorOnly, Invocation.onLog recordErrorOnly],
           { loggerWithThreeLevels with logs := [] })
    ∧ recordErrorOnly.entries = [entryErrorSample]
    ∧ recordErrorOnly.entries ≠ [entryInfoSample, entryErrorSample, entryDebugSample] := by
  refine ⟨rfl, rfl, by decide⟩

/-- Claim C2 counterexample: the status side table and the entry
sequences do NOT occupy independent key spaces — both live in the one
shared map, statuses under `reqId + "_status"`.  Concretely, with
`r = "a"` and `t = "a_status"`: setting a status for `r` destroys the
buffered entry sequence of `t`; and after inserting an entry under `t`,
reading the status of `r` (never set) does not yield 200 — it hits the
entry sequence and the `status.(int)` assertion panics. -/
theorem c2_status_key_collision :
    bufferedEntries (logStatus statusCollisionLogger "a" 500) "a_status" ≠
      bufferedEntries statusCollisionLogger "a_status"
    ∧ insertEntry sampleLogger { emptyEntry with threadId := "a_status" } =
        .ok { sampleLogger with
              logs := [("a_status", .entries [{ emptyEntry with threadId := "a_status" }])] }
    ∧ status { sampleLogger with
               logs := [("a_status", .entries [{ emptyEntry with threadId := "a_status" }])] }
        "a" ≠ .ok 200 := by
  refine ⟨by decide, rfl, fun h => nomatch h⟩

/-- Claim C2 as amended: the independence holds for every request id `r`
and thread id `t` EXCEPT when `t` is literally `r + "_status"` — then
setting a status for `r` leaves the buffered sequence of `t` unchanged,
inserting under `t` leaves the status read back for `r` unchanged, and a
status never set reads back as 200. -/
theorem c2_key_spaces_independent_amended (l : LoggerState) (r t : String) (c : Int)
    (e : Entry) (l2 : LoggerState) (hne : t ≠ r ++ "_status") :
    bufferedEntries (logStatus l r c) t = bufferedEntries l t
    ∧ (e.threadId = t → insertEntry l e = .ok l2 → status l2 r = status l r)
    ∧ (mapLoad l.logs (r ++ "_status") = none → status l r = .ok 200) := by
  refine ⟨?_, ?_, ?_⟩
  · simp [bufferedEntries, logStatus, mapLoad_mapStore_ne _ _ _ _ hne]
  · intro het hins
    subst het
    simp only [insertEntry] at hins
    cases h : mapLoad l.logs e.threadId with
    | none =>
      rw [h] at hins
      cases hins
      simp [status, mapLoad_mapStore_ne _ _ _ _ (Ne.symm hne)]
    | some w =>
      rw [h] at hins
      cases w with
      | entries ee =>
        cases hins
        simp [status, mapLoad_mapStore_ne _ _ _ _ (Ne.symm hne)]
      | code cc => cases hins
  · intro h0
    simp [status, h0]

/-- Witness for C2's amended independence at concrete distinct keys. -/
theorem c2_witness :
    ("x" : String) ≠ "a" ++ "_status"
    ∧ bufferedEntries (logStatus sampleLogger "a" 7) "x" = bufferedEntries sampleLogger "x"
    ∧ status { sampleLogger with logs := [("x", .entries [{ emptyEntry with threadId := "x" }])] } "a" =
        status sampleLogger "a"
    ∧ status sampleLogger "a" = .ok 200 :=
  ⟨by decide,
   (c2_key_spaces_independent_amended sampleLogger "a" "x" 7
     { emptyEntry with threadId := "x" }
     { sampleLogger with logs := [("x", .entries [{ emptyEntry with threadId := "x" }])] }
     (by decide)).1,
   (c2_key_spaces_independent_amended sampleLogger "a" "x" 7
     { emptyEntry with threadId := "x" }
     { sampleLogger with logs := [("x", .entries [{ emptyEntry with threadId := "x" }])] }
     (by decide)).2.1 rfl rfl,
   (c2_key_spaces_independent_amended sampleLogger "a" "x" 7
     { emptyEntry with threadId := "x" }
     { sampleLogger with logs := [("x", .entries [{ emptyEntry with threadId := "x" }])] }
     (by decide)).2.2 rfl⟩

/-- Claim C6: `Session.End` is idempotent — after any `End` call the
session is flagged ended and every further `End` is a complete no-op
(returns the session and logger unchanged and performs no drain and no
observer dispatch), while a first `End` on a live session sets the flag
and performs the session-kind finalization dispatch. -/
theorem c6_session_end_idempotent (s : SessionState) (l : LoggerState) (now : Nat) :
    (∀ (l2 : LoggerState) (now2 : Nat),
        sessionEnd (sessionEnd s l now).1 l2 now2 =
          ((sessionEnd s l now).1, .ok ([], l2)))
    ∧ (s.ended = false →
        sessionEnd s l now =
          ({ s with ended := true },
           endThread l ThreadKind.session s.id "" "" s.name 0 now)) := by
  constructor
  · intro l2 now2
    by_cases h : s.ended <;> simp [sessionEnd, h]
  · intro h
    simp [sessionEnd, h]

/-- Witness for C6 at a concrete live session. -/
theorem c6_witness :
    ({ name := "w", id := "9", ended := false } : SessionState).ended = false
    ∧ sessionEnd
        (sessionEnd { name := "w", id := "9", ended := false } sampleLogger 3).1
        sampleLogger 4 =
        ((sessionEnd { name := "w", id := "9", ended := false } sampleLogger 3).1,
         .ok ([], sampleLogger))
    ∧ sessionEnd { name := "w", id := "9", ended := false } sampleLogger 3 =
        ({ name := "w", id := "9", ended := true },
         endThread sampleLogger ThreadKind.session "9" "" "" "w" 0 3) :=
  ⟨by decide,
   (c6_session_end_idempotent { name := "w", id := "9", ended := false }
      sampleLogger 3).1 sampleLogger 4,
   (c6_session_end_idempotent { name := "w", id := "9", ended := false }
      sampleLogger 3).2 rfl⟩

/-- Claim C7: every logging call on an ended session returns the usable
zero-value placeholder entry, inserts nothing (the logger state is
returned unchanged, with no panic), and `Data` chaining on the
placeholder is well defined, appending the given pairs. -/
theorem c7_logging_after_end_noop (s : SessionState) (l : LoggerState)
    (msg k k2 : String) (v v2 : GoVal) (h : s.ended = true) :
    sessionInfo s l msg = .ok (emptyEntry, l)
    ∧ sessionError s l msg = .ok (emptyEntry, l)
    ∧ sessionDebug s l msg = .ok (emptyEntry, l)
    ∧ sessionInfoF s l msg = .ok (emptyEntry, l)
    ∧ sessionErrorF s l msg = .ok (emptyEntry, l)
    ∧ sessionDebugF s l msg = .ok (emptyEntry, l)
    ∧ (emptyEntry.data k v).data k2 v2 =
        { emptyEntry with keyVals := [(k, v), (k2, v2)] } := by
  simp [sessionInfo, sessionError, sessionDebug, sessionInfoF, sessionErrorF,
        sessionDebugF, h, Entry.data, emptyEntry]

/-- Witness for C7 on a concrete ended session. -/
theorem c7_witness :
    ({ name := "w", id := "9", ended := true } : SessionState).ended = true
    ∧ sessionInfo { name := "w", id := "9", ended := true } sampleLogger "hi" =
        .ok (emptyEntry, sampleLogger)
    ∧ (emptyEntry.data "k" (.int 1)).data "j" (.bool true) =
        { emptyEntry with keyVals := [("k", .int 1), ("j", .bool true)] } :=
  ⟨by decide,
   (c7_logging_after_end_noop { name := "w", id := "9", ended := true }
      sampleLogger "hi" "k" "j" (.int 1) (.bool true) rfl).1,
   (c7_logging_after_end_noop { name := "w", id := "9", ended := true }
      sampleLogger "hi" "k" "j" (.int 1) (.bool true) rfl).2.2.2.2.2.2⟩

theorem dataMultiLoop_stuck (fuel : Nat) (e : Entry) (k : String) (v : GoVal) :
    dataMultiLoop fuel e k v false = none := by
  induction fuel generalizing e with
  | zero => rfl
  | succ n ih => exact ih _

/-- Claim C10 (code bug): `DataMulti` never terminates once the
`KeyValuer` yields a single pair — the loop header calls `Next()` exactly
once and the loop body never advances the iterator, so `done` stays
`false` and the same pair is appended forever (no fuel bound suffices);
only an immediately-exhausted iterator returns, with nothing appended. -/
theorem c10_dataMulti_diverges (fuel : Nat) (e : Entry) (k : String) (v : GoVal)
    (rest : List (String × GoVal)) :
    dataMulti fuel e ((k, v) :: rest) = none
    ∧ dataMulti fuel e [] = some e := by
  constructor
  · exact dataMultiLoop_stuck fuel e k v
  · cases fuel <;> rfl

theorem endsInPeriod_capitalize (l : List Char) (h : l.getLast? = some '.') :
    endsInPeriod ⟨capitalizeData l⟩ = true := by
  cases l with
  | nil => simp at h
  | cons c rest =>
    cases rest with
    | nil =>
      simp at h
      subst h
      decide
    | cons c2 rest2 =>
      rw [List.getLast?_cons_cons] at h
      simp only [endsInPeriod, capitalizeData]
      rw [List.getLast?_cons_cons, h]
      decide

theorem ifPeriod_getLast (msg : String) :
    (if endsInPeriod msg then msg else msg ++ ".").data.getLast? = some '.' := by
  by_cases h : endsInPeriod msg
  · rw [if_pos h]
    rw [endsInPeriod] at h
    cases hl : msg.data.getLast? with
    | none => rw [hl] at h; exact absurd h (by simp)
    | some c =>
      rw [hl] at h
      simp only [decide_eq_true_eq] at h
      exact congrArg some h
  · rw [if_neg h, String.data_append]
    exact List.getLast?_concat _

theorem endsInPeriod_normalizeMsg (msg : String) : endsInPeriod (normalizeMsg msg) = true := by
  unfold normalizeMsg
  exact endsInPeriod_capitalize _ (ifPeriod_getLast msg)

theorem char_isLower_iff (c : Char) : c.isLower = true ↔ 97 ≤ c.toNat ∧ c.toNat ≤ 122 := by
  simp only [Char.isLower, Bool.and_eq_true, decide_eq_true_eq, ge_iff_le]
  constructor
  · rintro ⟨h1, h2⟩
    rw [UInt32.le_def, BitVec.le_def] at h1 h2
    exact ⟨h1, h2⟩
  · rintro ⟨h1, h2⟩
    constructor
    · rw [UInt32.le_def, BitVec.le_def]; exact h1
    · rw [UInt32.le_def, BitVec.le_def]; exact h2

theorem char_toUpper_not_lower (c : Char) : (Char.toUpper c).isLower = false := by
  rw [Char.toUpper]
  show (if c.toNat ≥ 97 ∧ c.toNat ≤ 122 then Char.ofNat (c.toNat - 32) else c).isLower = false
  by_cases h : c.toNat ≥ 97 ∧ c.toNat ≤ 122
  · rw [if_pos h]
    have hv : (Char.ofNat (c.toNat - 32)).toNat = c.toNat - 32 := by
      rw [Char.ofNat, dif_pos (by left; omega : (c.toNat - 32).isValidChar)]
      rfl
    rw [Bool.eq_false_iff]
    intro hcon
    rw [char_isLower_iff, hv] at hcon
    omega
  · rw [if_neg h, Bool.eq_false_iff]
    intro hcon
    rw [char_isLower_iff] at hcon
    exact h (by omega)

theorem normalizeMsg_head (msg : String) :
    (normalizeMsg msg).data.head? =
      ((if endsInPeriod msg then msg else msg ++ ".").data.head?).map Char.toUpper := by
  show (⟨capitalizeData (if endsInPeriod msg then msg else msg ++ ".").data⟩ : String).data.head? =
    ((if endsInPeriod msg then msg else msg ++ ".").data.head?).map Char.toUpper
  generalize (if endsInPeriod msg then msg else msg ++ ".").data = l
  cases l with
  | nil => rfl
  | cons c rest => rfl

theorem normalizeMsg_first_not_lower (msg : String) (c : Char)
    (h : (normalizeMsg msg).data.head? = some c) : c.isLower = false := by
  rw [normalizeMsg_head] at h
  cases hd : (if endsInPeriod msg then msg else msg ++ ".").data.head? with
  | none => rw [hd] at h; exact absurd h (by simp)
  | some c0 =>
    rw [hd] at h
    have h2 : Char.toUpper c0 = c := by injection h
    rw [← h2]
    exact char_toUpper_not_lower c0

theorem logEntry_message (l : LoggerState) (level : Level) (tid msg : String)
    (hlvl : level = Level.debug → l.debug = true) (e : Entry) (l2 : LoggerState)
    (hok : logEntry l level tid msg = .ok (e, l2)) : e.message = normalizeMsg msg := by
  rw [logEntry, if_neg ?hn] at hok
  case hn =>
    rintro ⟨h1, h2⟩
    have h3 := hlvl h1
    rw [h2] at h3
    exact Bool.false_ne_true h3
  cases hins : insertEntry l (builtEntry l level tid msg) with
  | ok l3 => rw [hins] at hok; cases hok; rfl
  | error p => rw [hins] at hok; exact (Except.noConfusion hok)

/-- Claim C3 counterexample: "ends with exactly one terminating period"
fails — on the input `"x.."` the stored message is `"X.."`, which keeps
both trailing periods: the source only refrains from appending a period
when one is already present; it never collapses existing ones. -/
theorem c3_double_period_counterexample :
    (logEntry sampleLogger Level.info "t" "x..").map (fun p => p.1.message) = .ok "X.."
    ∧ normalizeMsg "x.." = "X.."
    ∧ endsInExactlyOnePeriod "X.." = false :=
  ⟨rfl, rfl, rfl⟩

/-- Claim C3 as amended: every created (non-suppressed) entry stores
`normalizeMsg` of its input identically for every level; the stored
message always ends with AT LEAST one terminating period (a period is
appended only when the input lacks one, so `"already done."` gains no
duplicate); its first character is the uppercased first character of the
period-completed input (hence never a lowercase ASCII letter); and the
two of the claim's example inputs normalize exactly as stated. -/
theorem c3_normalization_amended (l : LoggerState) (level : Level) (tid msg : String)
    (hlvl : level = Level.debug → l.debug = true) :
    (∀ e l2, logEntry l level tid msg = .ok (e, l2) → e.message = normalizeMsg msg)
    ∧ endsInPeriod (normalizeMsg msg) = true
    ∧ (normalizeMsg msg).data.head? =
        ((if endsInPeriod msg then msg else msg ++ ".").data.head?).map Char.toUpper
    ∧ (∀ c, (normalizeMsg msg).data.head? = some c → c.isLower = false)
    ∧ normalizeMsg "failed" = "Failed."
    ∧ normalizeMsg "already done." = "Already done." :=
  ⟨fun e l2 hok => logEntry_message l level tid msg hlvl e l2 hok,
   endsInPeriod_normalizeMsg msg, normalizeMsg_head msg,
   fun c h => normalizeMsg_first_not_lower msg c h, rfl, rfl⟩

/-- Witness for C3's amended normalization at level Info on `"failed"`. -/
theorem c3_witness :
    (Level.info = Level.debug → sampleLogger.debug = true)
    ∧ ((∀ e l2, logEntry sampleLogger Level.info "t" "failed" = .ok (e, l2) →
          e.message = normalizeMsg "failed")
       ∧ endsInPeriod (normalizeMsg "failed") = true
       ∧ (normalizeMsg "failed").data.head? =
           ((if endsInPeriod "failed" then "failed" else "failed" ++ ".").data.head?).map
             Char.toUpper
       ∧ (∀ c, (normalizeMsg "failed").data.head? = some c → c.isLower = false)
       ∧ normalizeMsg "failed" = "Failed."
       ∧ normalizeMsg "already done." = "Already done.") :=
  ⟨by decide,
   c3_normalization_amended sampleLogger Level.info "t" "failed" (by decide)⟩

theorem decDigitsAux_append (fuel : Nat) : ∀ (n : Nat) (ds : List Char),
    decDigitsAux fuel n ds = decDigitsAux fuel n [] ++ ds := by
  induction fuel with
  | zero => intro n ds; simp [decDigitsAux]
  | succ f ih =>
    intro n ds
    simp only [decDigitsAux]
    by_cases h : n < 10
    · simp [h]
    · rw [if_neg h, if_neg h, ih (n / 10) (Nat.digitChar (n % 10) :: ds),
          ih (n / 10) [Nat.digitChar (n % 10)]]
      simp [List.append_assoc]

theorem decDigitsAux_fuel (n : Nat) : ∀ (f1 f2 : Nat) (ds : List Char),
    n < f1 → n < f2 → decDigitsAux f1 n ds = decDigitsAux f2 n ds := by
  induction n using Nat.strongRecOn with
  | _ n ih =>
    intro f1 f2 ds h1 h2
    cases f1 with
    | zero => omega
    | succ g1 =>
      cases f2 with
      | zero => omega
      | succ g2 =>
        simp only [decDigitsAux]
        by_cases h : n < 10
        · simp [h]
        · rw [if_neg h, if_neg h]
          exact ih (n / 10) (by omega) _ _ _ (by omega) (by omega)

theorem digitChar_val (d : Nat) (h : d < 10) : (Nat.digitChar d).toNat - 48 = d := by
  interval_cases d <;> decide

theorem decReadBack (n : Nat) :
    List.foldl (fun a c => a * 10 + (c.toNat - 48)) 0 (decDigitsAux (n + 1) n []) = n := by
  induction n using Nat.strongRecOn with
  | _ n ih =>
    simp only [decDigitsAux]
    by_cases h : n < 10
    · rw [if_pos h]
      simp only [List.foldl]
      rw [Nat.zero_mul, Nat.zero_add, digitChar_val n h]
    · rw [if_neg h]
      rw [decDigitsAux_append]
      rw [decDigitsAux_fuel (n / 10) n (n / 10 + 1) [] (by omega) (by omega)]
      rw [List.foldl_append]
      rw [ih (n / 10) (by omega)]
      simp only [List.foldl]
      rw [digitChar_val (n % 10) (by omega)]
      omega

theorem formatDec_inj (m n : Nat) (h : formatDec m = formatDec n) : m = n := by
  have hm := decReadBack m
  have hn := decReadBack n
  have hl : decDigitsAux (m + 1) m [] = decDigitsAux (n + 1) n [] := congrArg String.data h
  rw [hl] at hm
  omega

theorem stateAfterCalls_idCount (n : Nat) :
    (stateAfterCalls zeroLogger n).idCount = wrap64 n := by
  induction n with
  | zero =>
    show (0 : Int) = wrap64 0
    unfold wrap64
    omega
  | succ k ih =>
    show (newId (stateAfterCalls zeroLogger k)).2.idCount = wrap64 (k + 1)
    simp only [newId]
    rw [ih]
    unfold wrap64
    push_cast
    omega

theorem callId_eq (n : Nat) (h : 1 ≤ n) : callId zeroLogger n = formatInt (wrap64 n) := by
  rw [callId]
  simp only [newId]
  rw [stateAfterCalls_idCount]
  have hw : wrap64 (wrap64 ((n - 1 : Nat) : Int) + 1) = wrap64 (n : Int) := by
    unfold wrap64
    omega
  rw [hw]

theorem callId_in_range (n : Nat) (h1 : 1 ≤ n) (h2 : n < 2 ^ 63) :
    callId zeroLogger n = formatDec n := by
  rw [callId_eq n h1]
  have hw : wrap64 (n : Int) = n := by unfold wrap64; omega
  rw [hw, formatInt, if_neg (by omega : ¬ (n : Int) < 0)]
  simp

/-- Claim C8 counterexample: "no other call has returned or will return"
fails in the large — the shared counter is a 64-bit integer, so after
2^64 calls it wraps to its starting point and call number 2^64 + 1
returns the same id `"1"` as the first call. -/
theorem c8_counter_wraps_counterexample :
    callId zeroLogger 1 = callId zeroLogger (2 ^ 64 + 1)
    ∧ (1 : Nat) ≠ 2 ^ 64 + 1 := by
  constructor
  · rw [callId_eq 1 (by omega), callId_eq (2 ^ 64 + 1) (by omega)]
    have h1 : wrap64 ((1 : Nat) : Int) = 1 := by unfold wrap64; omega
    have h2 : wrap64 (((2 ^ 64 + 1 : Nat) : Int)) = 1 := by unfold wrap64; push_cast []
    rw [h1, h2]
  · omega

/-- Claim C8 as amended: over the first 2^63 - 1 calls (before the
`int64` counter can wrap), the n-th call to `NewId` on a fresh logger
returns exactly the decimal string of n, distinct calls return distinct
ids, and the underlying counter value increases strictly from call to
call. -/
theorem c8_ids_unique_amended (m n : Nat) (h1 : 1 ≤ m) (h2 : m < n) (h3 : n < 2 ^ 63) :
    callId zeroLogger n = formatDec n
    ∧ callId zeroLogger m = formatDec m
    ∧ callId zeroLogger m ≠ callId zeroLogger n
    ∧ (stateAfterCalls zeroLogger m).idCount < (stateAfterCalls zeroLogger n).idCount := by
  refine ⟨callId_in_range n (by omega) h3, callId_in_range m h1 (by omega), ?_, ?_⟩
  · rw [callId_in_range n (by omega) h3, callId_in_range m h1 (by omega)]
    intro hEq
    exact absurd (formatDec_inj m n hEq) (by omega)
  · rw [stateAfterCalls_idCount, stateAfterCalls_idCount]
    have hm : wrap64 (m : Int) = m := by unfold wrap64; omega
    have hn : wrap64 (n : Int) = n := by unfold wrap64; omega
    rw [hm, hn]
    exact_mod_cast h2

/-- Witness for C8's amended statement at calls 1 and 2. -/
theorem c8_witness :
    (1 ≤ 1 ∧ 1 < 2 ∧ 2 < 2 ^ 63)
    ∧ (callId zeroLogger 2 = formatDec 2
       ∧ callId zeroLogger 1 = formatDec 1
       ∧ callId zeroLogger 1 ≠ callId zeroLogger 2
       ∧ (stateAfterCalls zeroLogger 1).idCount < (stateAfterCalls zeroLogger 2).idCount) :=
  ⟨⟨by omega, by omega, by norm_num⟩,
   c8_ids_unique_amended 1 2 (by omega) (by omega) (by norm_num)⟩

theorem digitChar_bounds (d : Nat) (h : d < 10) :
    '0' ≤ Nat.digitChar d ∧ Nat.digitChar d ≤ '9' := by
  interval_cases d <;> exact ⟨by decide, by decide⟩

theorem decDigitsAux_digits (fuel : Nat) : ∀ (n : Nat) (ds : List Char),
    (∀ c ∈ ds, '0' ≤ c ∧ c ≤ '9') → ∀ c ∈ decDigitsAux fuel n ds, '0' ≤ c ∧ c ≤ '9' := by
  induction fuel with
  | zero => intro n ds hds; simpa [decDigitsAux] using hds
  | succ f ih =>
    intro n ds hds c hc
    simp only [decDigitsAux] at hc
    by_cases h : n < 10
    · rw [if_pos h] at hc
      rcases List.mem_cons.mp hc with rfl | hmem
      · exact digitChar_bounds n h
      · exact hds c hmem
    · rw [if_neg h] at hc
      refine ih (n / 10) _ ?_ c hc
      intro c2 hc2
      rcases List.mem_cons.mp hc2 with rfl | hm2
      · exact digitChar_bounds _ (by omega)
      · exact hds _ hm2

theorem formatInt_not_quoted (i : Int) (t : String) : formatInt i ≠ "\"" ++ t ++ "\"" := by
  intro hEq
  by_cases hi : i < 0
  · rw [formatInt, if_pos hi] at hEq
    have hdata := congrArg String.data hEq
    rw [String.data_append, String.data_append, String.data_append] at hdata
    injection hdata with hh ht2
    exact absurd hh (by decide)
  · rw [formatInt, if_neg hi] at hEq
    have hdata := congrArg String.data hEq
    rw [String.data_append, String.data_append] at hdata
    have hmem : '"' ∈ decDigitsAux (i.toNat + 1) i.toNat [] := by
      show '"' ∈ (formatDec i.toNat).data
      rw [hdata]
      exact List.mem_cons_self _ _
    have hb := decDigitsAux_digits (i.toNat + 1) i.toNat [] (by simp) '"' hmem
    exact absurd hb (by decide)

/-- Claim C9: in the pretty renderer's key-value loop, the rendered
value is surrounded by double quotation marks exactly when the
annotation value is of string or error type; int- and bool-typed values
are rendered with no surrounding quotes; and each loop iteration emits
the `" fStart    key = value\n"` line around that rendering. -/
theorem c9_pretty_quotes_strings_and_errors (v : GoVal) (fStart k : String) :
    ((∃ t, prettyVal v = "\"" ++ t ++ "\"") ↔
      (∃ s, v = GoVal.str s) ∨ (∃ m, v = GoVal.err m))
    ∧ prettyKvLine fStart k v = " " ++ fStart ++ "    " ++ k ++ " = " ++ prettyVal v ++ "\n" := by
  refine ⟨⟨?_, ?_⟩, rfl⟩
  · intro hq
    cases v with
    | str s => exact Or.inl ⟨s, rfl⟩
    | err m => exact Or.inr ⟨m, rfl⟩
    | int n =>
      obtain ⟨t, ht⟩ := hq
      exact absurd ht (formatInt_not_quoted n t)
    | bool b =>
      obtain ⟨t, ht⟩ := hq
      cases b with
      | true =>
        rw [show prettyVal (GoVal.bool true) = "true" from rfl] at ht
        have hdata := congrArg String.data ht
        rw [String.data_append, String.data_append] at hdata
        injection hdata with h1 h2
        exact absurd h1 (by decide)
      | false =>
        rw [show prettyVal (GoVal.bool false) = "false" from rfl] at ht
        have hdata := congrArg String.data ht
        rw [String.data_append, String.data_append] at hdata
        injection hdata with h1 h2
        exact absurd h1 (by decide)
  · rintro (⟨s, rfl⟩ | ⟨m, rfl⟩)
    · exact ⟨s, rfl⟩
    · exact ⟨m, rfl⟩

end GoLog
